import Mathlib

/-!
# Verification of the rubiks-portfolio logical cube engine

Shallow embedding of the logical Rubik's-cube engine of the repository:

* `src/cube/Cubie.js` — per-cubie integer coordinates and face-color map
  (`initializeFaceColors`, `getColorOnFace`, `rotateFaceColors`);
* `src/cube/Cube.js` — the 27-cubie collection (`createCubies`,
  `getCubiesOnLayer`) and, from the implementation guide's `Cube` class,
  the move pipeline `rotate` / `executeRotation` /
  `updatePositionsAfterRotation` and `scramble`;
* `src/detection/SolveDetector.js` — per-face solve detection
  (`checkAllFaces`, `isFaceSolved`, `getCubiesOnFace`, `isCenter`,
  `faceToAxisLayer`);
* `src/animation/MoveQueue.js` — the FIFO move queue, embedded as a
  labelled transition system over its fields.

Rendering-only fields of the JS classes (`mesh`, `group`, home positions,
materials) are not part of the logical state and are not modelled.
JavaScript axis arguments are strings, and the code indexes `cubie[axis]`
dynamically (yielding `undefined` for unknown axes), so axes are embedded
as `String` with an `Option Int` lookup.  Coordinates are integers
throughout the engine, so `Math.round` on them is the identity and is not
represented.
-/

namespace Rubiks

/-- The six sticker colors used by `initializeFaceColors`. -/
inductive Color
  | red | orange | white | yellow | green | blue
  deriving DecidableEq, Repr

/-- The face-color map of one cubie: `this.faceColors` in `Cubie.js`,
an object with the six keys `right,left,up,down,front,back`; `null`
(interior) is embedded as `none`. -/
structure FaceColors where
  right : Option Color
  left : Option Color
  up : Option Color
  down : Option Color
  front : Option Color
  back : Option Color
  deriving DecidableEq, Repr

/-- The logical state of one cubie (`Cubie` in `Cubie.js`): integer
coordinates plus its face-color map. -/
structure Cubie where
  x : Int
  y : Int
  z : Int
  faceColors : FaceColors
  deriving DecidableEq, Repr

/-- `Cubie.initializeFaceColors`: initial colors from the starting
position. -/
def initFaceColors (x y z : Int) : FaceColors where
  right := if x = 1 then some Color.red else none
  left := if x = -1 then some Color.orange else none
  up := if y = 1 then some Color.white else none
  down := if y = -1 then some Color.yellow else none
  front := if z = 1 then some Color.green else none
  back := if z = -1 then some Color.blue else none

/-- The `Cubie` constructor: position plus `initializeFaceColors`. -/
def mkCubie (x y z : Int) : Cubie :=
  { x := x, y := y, z := z, faceColors := initFaceColors x y z }

/-- `cubie[axis]` for a dynamic string axis: `some` coordinate for
`"x"`, `"y"`, `"z"`, and `none` (JavaScript `undefined`) otherwise. -/
def axisCoord (c : Cubie) (axis : String) : Option Int :=
  if axis = "x" then some c.x
  else if axis = "y" then some c.y
  else if axis = "z" then some c.z
  else none

/-- `Cube.createCubies`: the triple loop `x,y,z ∈ {-1,0,1}` in that
nesting order, pushing each new cubie. -/
def createCubies : List Cubie :=
  ([-1, 0, 1] : List Int).flatMap fun x =>
    ([-1, 0, 1] : List Int).flatMap fun y =>
      ([-1, 0, 1] : List Int).map fun z => mkCubie x y z

/-- The cube's state right after construction (solved). -/
def initialCube : List Cubie := createCubies

/-- `Cube.getCubiesOnLayer`: `cubies.filter(c => c[axis] === layer)`.
JavaScript strict equality against `undefined` is false, matching
`none == some layer`. -/
def getCubiesOnLayer (s : List Cubie) (axis : String) (layer : Int) : List Cubie :=
  s.filter fun c => axisCoord c axis == some layer

/-- The coordinate half of `updatePositionsAfterRotation` (implementation
guide, `Cube` class): per-axis 90° integer rotation of the two other
coordinates, branching on `direction === 1`.  The saved `oldX/oldY/oldZ`
snapshot is reflected by the simultaneous record update.  `Math.round`
is the identity on these integers. -/
def updatePositionCubie (c : Cubie) (axis : String) (direction : Int) : Cubie :=
  if axis = "x" then
    { c with y := if direction = 1 then -c.z else c.z,
             z := if direction = 1 then c.y else -c.y }
  else if axis = "y" then
    { c with x := if direction = 1 then c.z else -c.z,
             z := if direction = 1 then -c.x else c.x }
  else if axis = "z" then
    { c with x := if direction = 1 then -c.y else c.y,
             y := if direction = 1 then c.x else -c.x }
  else c

/-- `Cubie.rotateFaceColors`: the four side faces around `axis` are
cyclically permuted, branching on `direction === 1`; the `old` snapshot
is reflected by the simultaneous record update. -/
def rotateFaceColors (c : Cubie) (axis : String) (direction : Int) : Cubie :=
  if axis = "x" then
    if direction = 1 then
      { c with faceColors :=
        { c.faceColors with up := c.faceColors.front, front := c.faceColors.down,
                            down := c.faceColors.back, back := c.faceColors.up } }
    else
      { c with faceColors :=
        { c.faceColors with up := c.faceColors.back, back := c.faceColors.down,
                            down := c.faceColors.front, front := c.faceColors.up } }
  else if axis = "y" then
    if direction = 1 then
      { c with faceColors :=
        { c.faceColors with front := c.faceColors.right, right := c.faceColors.back,
                            back := c.faceColors.left, left := c.faceColors.front } }
    else
      { c with faceColors :=
        { c.faceColors with front := c.faceColors.left, left := c.faceColors.back,
                            back := c.faceColors.right, right := c.faceColors.front } }
  else if axis = "z" then
    if direction = 1 then
      { c with faceColors :=
        { c.faceColors with up := c.faceColors.left, left := c.faceColors.down,
                            down := c.faceColors.right, right := c.faceColors.up } }
    else
      { c with faceColors :=
        { c.faceColors with up := c.faceColors.right, right := c.faceColors.down,
                            down := c.faceColors.left, left := c.faceColors.up } }
  else c

/-- What one move does to one selected cubie: `updatePositionsAfterRotation`
updates the coordinates and then calls `cubie.rotateFaceColors`. -/
def transformCubie (axis : String) (direction : Int) (c : Cubie) : Cubie :=
  rotateFaceColors (updatePositionCubie c axis direction) axis direction

/-- The net effect of `Cube.rotate(axis, layer, direction)` on the logical
state: `executeRotation` selects `getCubiesOnLayer(axis, layer)` and, when
the animation completes, `updatePositionsAfterRotation` mutates exactly
those cubies in place (array order and identity of the 27 entries are
preserved). -/
def rotateMove (axis : String) (layer direction : Int) (s : List Cubie) : List Cubie :=
  s.map fun c => if axisCoord c axis == some layer then transformCubie axis direction c else c

/-- The logical cube states reachable by the engine: the constructed
(solved) cube, followed by any sequence of `rotate` calls. -/
inductive Reachable : List Cubie → Prop
  | init : Reachable initialCube
  | step (axis : String) (layer direction : Int) (s : List Cubie) :
      Reachable s → Reachable (rotateMove axis layer direction s)

/-! ## Position-level view of a move

`updatePositionsAfterRotation` changes coordinates independently of the
colors, so moves project to a function on coordinate triples.  These
definitions are the coordinate shadow of `rotateMove` used to prove the
counting invariants. -/

/-- A cubie's coordinate triple. -/
def posOf (c : Cubie) : Int × Int × Int := (c.x, c.y, c.z)

/-- The 27 coordinate triples of the freshly constructed cube, in
creation order. -/
def allPositions : List (Int × Int × Int) := initialCube.map posOf

/-- `axisCoord` on a bare coordinate triple. -/
def pAxis (axis : String) (p : Int × Int × Int) : Option Int :=
  if axis = "x" then some p.1
  else if axis = "y" then some p.2.1
  else if axis = "z" then some p.2.2
  else none

/-- The coordinate rotation of `updatePositionsAfterRotation` on a bare
triple. -/
def pRot (axis : String) (direction : Int) (p : Int × Int × Int) : Int × Int × Int :=
  if axis = "x" then
    (p.1, if direction = 1 then -p.2.2 else p.2.2, if direction = 1 then p.2.1 else -p.2.1)
  else if axis = "y" then
    (if direction = 1 then p.2.2 else -p.2.2, p.2.1, if direction = 1 then -p.1 else p.1)
  else if axis = "z" then
    (if direction = 1 then -p.2.1 else p.2.1, if direction = 1 then p.1 else -p.1, p.2.2)
  else p

/-- What one `rotate` call does to one coordinate triple. -/
def posStep (axis : String) (layer direction : Int) (p : Int × Int × Int) : Int × Int × Int :=
  if pAxis axis p == some layer then pRot axis direction p else p

/-! ## SolveDetector (`src/detection/SolveDetector.js`) -/

/-- The six canonical face names iterated by `checkAllFaces`. -/
inductive Face
  | right | left | up | down | front | back
  deriving DecidableEq, Repr

/-- The face list `['right','left','up','down','front','back']` of
`checkAllFaces`. -/
def facesList : List Face := [.right, .left, .up, .down, .front, .back]

/-- `SolveDetector.faceToAxisLayer`. -/
def faceToAxisLayer : Face → String × Int
  | .right => ("x", 1)
  | .left => ("x", -1)
  | .up => ("y", 1)
  | .down => ("y", -1)
  | .front => ("z", 1)
  | .back => ("z", -1)

/-- `Cubie.getColorOnFace`: reads the named entry of `faceColors`. -/
def getColorOnFace (c : Cubie) : Face → Option Color
  | .right => c.faceColors.right
  | .left => c.faceColors.left
  | .up => c.faceColors.up
  | .down => c.faceColors.down
  | .front => c.faceColors.front
  | .back => c.faceColors.back

/-- `SolveDetector.getCubiesOnFace`: filter on the face's axis/layer.
(The source wraps the coordinate in `Math.round`, the identity here.) -/
def getCubiesOnFace (s : List Cubie) (face : Face) : List Cubie :=
  s.filter fun c => axisCoord c (faceToAxisLayer face).1 == some (faceToAxisLayer face).2

/-- `SolveDetector.isCenter`: the two axes other than the face's axis
are both zero. -/
def isCenter (c : Cubie) (face : Face) : Bool :=
  ((["x", "y", "z"] : List String).filter (· ≠ (faceToAxisLayer face).1)).all
    fun a => axisCoord c a == some 0

/-- `SolveDetector.isFaceSolved`: 9 cubies on the face, a center cubie is
found, its color on the face is non-null, and every cubie on the face
shows that color. -/
def isFaceSolved (s : List Cubie) (face : Face) : Bool :=
  let cubiesOnFace := getCubiesOnFace s face
  if cubiesOnFace.length ≠ 9 then false
  else
    match cubiesOnFace.find? (fun c => isCenter c face) with
    | none => false
    | some centerCubie =>
      match getColorOnFace centerCubie face with
      | none => false
      | some centerColor =>
        cubiesOnFace.all fun c => getColorOnFace c face == some centerColor

/-- Pointwise update of the detector's `solvedFaces` set, embedded as its
membership predicate. -/
def updateSolved (g : Face → Bool) (f : Face) (b : Bool) : Face → Bool :=
  fun f' => if f' = f then b else g f'

/-- The loop body of `SolveDetector.checkAllFaces` over a list of faces:
accumulates the `newlySolved` array and updates the `solvedFaces` set. -/
def checkFacesAux (s : List Cubie) : List Face → List Face × (Face → Bool) → List Face × (Face → Bool)
  | [], acc => acc
  | f :: fs, (newlySolved, solved) =>
    let isSolved := isFaceSolved s f
    let wasSolved := solved f
    if isSolved && !wasSolved then
      checkFacesAux s fs (newlySolved ++ [f], updateSolved solved f true)
    else if !isSolved && wasSolved then
      checkFacesAux s fs (newlySolved, updateSolved solved f false)
    else
      checkFacesAux s fs (newlySolved, solved)

/-- `SolveDetector.checkAllFaces`: its return value (the `newlySolved`
array handed to the caller) paired with the mutated internal
`solvedFaces` set. -/
def checkAllFaces (s : List Cubie) (solved : Face → Bool) : List Face × (Face → Bool) :=
  checkFacesAux s facesList ([], solved)

/-! ## MoveQueue (`src/animation/MoveQueue.js`)

The queue is embedded as a labelled transition system over the class's
fields (`queue`, `isAnimating`) together with the local variable of the
suspended `processNext` frame (`inflight`, the entry taken by
`queue.shift()` whose `moveFunction` is being awaited) and ghost history
lists recording, in order, which submissions were made, which move
applications started, which completed, and which promises were resolved.
Entries are numbered by submission order.  The three transitions mirror
the code's three atomic (synchronous, no `await` inside) blocks:

* `add` — `add(moveFunction)` pushes the entry (the `processNext()` call
  it makes is the `start` transition, which may fire whenever its guard
  holds);
* `start` — the first half of `processNext`: guarded by
  `!this.isAnimating` and a nonempty queue, sets `isAnimating`, shifts
  the first entry and begins awaiting its `moveFunction()`;
* `finish` — the rest of `processNext` after the `await` returns: clears
  `isAnimating` and calls that entry's `resolve()` (the trailing
  `processNext()` again just enables a later `start`). -/

/-- The state of the move queue plus ghost histories. -/
structure QState where
  queue : List Nat
  animating : Bool
  inflight : Option Nat
  submitted : List Nat
  started : List Nat
  finished : List Nat
  resolvedList : List Nat
  deriving DecidableEq, Repr

/-- The freshly constructed `MoveQueue`. -/
def QState.initial : QState :=
  { queue := [], animating := false, inflight := none,
    submitted := [], started := [], finished := [], resolvedList := [] }

/-- One atomic step of the move queue. -/
inductive QStep : QState → QState → Prop
  | add (s : QState) :
      QStep s { queue := s.queue ++ [s.submitted.length],
                animating := s.animating,
                inflight := s.inflight,
                submitted := s.submitted ++ [s.submitted.length],
                started := s.started,
                finished := s.finished,
                resolvedList := s.resolvedList }
  | start (s : QState) (m : Nat) (rest : List Nat) :
      s.animating = false →
      s.queue = m :: rest →
      QStep s { queue := rest,
                animating := true,
                inflight := some m,
                submitted := s.submitted,
                started := s.started ++ [m],
                finished := s.finished,
                resolvedList := s.resolvedList }
  | finish (s : QState) (m : Nat) :
      s.inflight = some m →
      QStep s { queue := s.queue,
                animating := false,
                inflight := none,
                submitted := s.submitted,
                started := s.started,
                finished := s.finished ++ [m],
                resolvedList := s.resolvedList ++ [m] }

/-- Queue states reachable from the freshly constructed `MoveQueue`. -/
inductive QReach : QState → Prop
  | init : QReach QState.initial
  | step (s t : QState) : QReach s → QStep s t → QReach t

/-! ## Scramble (implementation guide, `Cube.scramble`)

`scramble` draws `axes[⌊r·3⌋]`, `layers[⌊r·3⌋]`, `directions[⌊r·2⌋]`
from three consecutive `Math.random()` calls per iteration and awaits
`this.rotate(...)` before the next iteration.  The ambient `Math.random`
stream is embedded as an explicit sequence `env : ℕ → ℚ` of the values
returned by successive calls; iteration `i` consumes calls `3i`,
`3i+1`, `3i+2`.  There is no seed parameter in the source: the caller
controls only `moveCount`. -/

/-- The `axes` array of `scramble`. -/
def axesArr : List String := ["x", "y", "z"]

/-- The `layers` array of `scramble`. -/
def layersArr : List Int := [-1, 0, 1]

/-- The `directions` array of `scramble`. -/
def directionsArr : List Int := [1, -1]

/-- `Math.floor(r * len)` as an array index. -/
def randomIndex (r : ℚ) (len : Nat) : Nat := (⌊r * len⌋).toNat

/-- The move descriptor drawn in iteration `i` of `scramble`.  (The
`getD` defaults are unreachable while `Math.random` returns values in
`[0,1)`.) -/
def drawMove (env : Nat → ℚ) (i : Nat) : String × Int × Int :=
  (axesArr.getD (randomIndex (env (3 * i)) axesArr.length) "x",
   layersArr.getD (randomIndex (env (3 * i + 1)) layersArr.length) 0,
   directionsArr.getD (randomIndex (env (3 * i + 2)) directionsArr.length) 1)

/-- The full sequence of descriptors drawn by `scramble(moveCount)`. -/
def scrambleMoves (env : Nat → ℚ) (moveCount : Nat) : List (String × Int × Int) :=
  (List.range moveCount).map (drawMove env)

/-- The net effect of `scramble(moveCount)` on the logical cube state:
the loop awaits each `rotate` before drawing the next move, so the state
after the returned promise resolves is the in-order sequential
application of the drawn moves. -/
def scramble (env : Nat → ℚ) (moveCount : Nat) (s : List Cubie) : List Cubie :=
  (List.range moveCount).foldl
    (fun st i => rotateMove (drawMove env i).1 (drawMove env i).2.1 (drawMove env i).2.2 st) s

/-! ## Helper lemmas about single moves -/

/-- A move never changes a cubie's coordinate on the rotation axis. -/
lemma axisCoord_transformCubie (a : String) (d : Int) (c : Cubie) :
    axisCoord (transformCubie a d c) a = axisCoord c a := by
  cases c with
  | mk x y z fc =>
    simp only [transformCubie, updatePositionCubie, rotateFaceColors, axisCoord]
    split_ifs <;> simp_all

/-- For the two real directions, the `-direction` transform undoes the
`direction` transform on a single cubie. -/
lemma transformCubie_inv (a : String) (ha : a ∈ (["x", "y", "z"] : List String))
    (d : Int) (hd : d = 1 ∨ d = -1) (c : Cubie) :
    transformCubie a (-d) (transformCubie a d c) = c := by
  cases c with
  | mk x y z fc =>
    cases fc
    rcases hd with rfl | rfl <;> norm_num <;>
      fin_cases ha <;>
      simp [transformCubie, updatePositionCubie, rotateFaceColors]

/-- Four clockwise quarter-turn transforms are the identity on a single
cubie. -/
lemma transformCubie_four (a : String) (ha : a ∈ (["x", "y", "z"] : List String)) (c : Cubie) :
    transformCubie a 1 (transformCubie a 1 (transformCubie a 1 (transformCubie a 1 c))) = c := by
  cases c with
  | mk x y z fc =>
    cases fc
    fin_cases ha <;>
      simp [transformCubie, updatePositionCubie, rotateFaceColors]

/-- Both branches of `updatePositionsAfterRotation` and of
`rotateFaceColors` test `direction === 1`, so every direction other
than `1` takes the counterclockwise branch. -/
lemma transformCubie_of_ne_one (a : String) (d : Int) (hd : d ≠ 1) (c : Cubie) :
    transformCubie a d c = transformCubie a (-1) c := by
  simp only [transformCubie, updatePositionCubie, rotateFaceColors, if_neg hd]
  norm_num

/-- Two whole-cube moves cancel as soon as they cancel on each cubie of
the turned layer. -/
lemma rotateMove_comp_pointwise (a : String) (l d d' : Int)
    (h : ∀ c : Cubie, transformCubie a d' (transformCubie a d c) = c) (s : List Cubie) :
    rotateMove a l d' (rotateMove a l d s) = s := by
  induction s with
  | nil => rfl
  | cons c cs ih =>
    simp only [rotateMove, List.map_cons] at ih ⊢
    refine congrArg₂ List.cons ?_ ih
    by_cases hc : axisCoord c a == some l
    · have hax := axisCoord_transformCubie a d c
      simp [hax, hc, h c]
    · simp [hc]

/-- Four whole-cube moves cancel as soon as they cancel on each cubie of
the turned layer. -/
lemma rotateMove_four_pointwise (a : String) (l : Int)
    (h : ∀ c : Cubie,
      transformCubie a 1 (transformCubie a 1 (transformCubie a 1 (transformCubie a 1 c))) = c)
    (s : List Cubie) :
    rotateMove a l 1 (rotateMove a l 1 (rotateMove a l 1 (rotateMove a l 1 s))) = s := by
  induction s with
  | nil => rfl
  | cons c cs ih =>
    simp only [rotateMove, List.map_cons] at ih ⊢
    refine congrArg₂ List.cons ?_ ih
    by_cases hc : axisCoord c a == some l
    · have h1 := axisCoord_transformCubie a 1 c
      have h2 := axisCoord_transformCubie a 1 (transformCubie a 1 c)
      have h3 := axisCoord_transformCubie a 1 (transformCubie a 1 (transformCubie a 1 c))
      simp [hc, h1, h2, h3, h1 ▸ hc, h c]
    · simp [hc]

/-! ## Claim theorems: move algebra -/

/-- C3: for each of the 18 `(axis, layer, direction)` combinations,
applying a move and then the move with negated direction restores every
cubie's exact coordinates and face-color map (the whole list of 27
cubie states is restored, entry by entry), from any cube state. -/
theorem move_then_inverse_id (axis : String) (haxis : axis ∈ (["x", "y", "z"] : List String))
    (layer : Int) (hlayer : layer ∈ ([-1, 0, 1] : List Int))
    (direction : Int) (hdir : direction = 1 ∨ direction = -1) (s : List Cubie) :
    rotateMove axis layer (-direction) (rotateMove axis layer direction s) = s :=
  rotateMove_comp_pointwise axis layer direction (-direction)
    (transformCubie_inv axis haxis direction hdir) s

/-- Witness for C3 at `(x, 1, +1)` on the solved cube. -/
theorem move_then_inverse_id_witness :
    rotateMove "x" 1 (-1) (rotateMove "x" 1 1 initialCube) = initialCube :=
  move_then_inverse_id "x" (by decide) 1 (by decide) 1 (Or.inl rfl) initialCube

/-- C4: for each of the 9 `(axis, layer)` combinations, applying the move
`(axis, layer, +1)` four times in succession restores every cubie's
exact coordinates and face-color map, from any cube state. -/
theorem move_four_times_id (axis : String) (haxis : axis ∈ (["x", "y", "z"] : List String))
    (layer : Int) (hlayer : layer ∈ ([-1, 0, 1] : List Int)) (s : List Cubie) :
    rotateMove axis layer 1 (rotateMove axis layer 1
      (rotateMove axis layer 1 (rotateMove axis layer 1 s))) = s :=
  rotateMove_four_pointwise axis layer (transformCubie_four axis haxis) s

/-- Witness for C4 at `(y, -1)` on the solved cube. -/
theorem move_four_times_id_witness :
    rotateMove "y" (-1) 1 (rotateMove "y" (-1) 1
      (rotateMove "y" (-1) 1 (rotateMove "y" (-1) 1 initialCube))) = initialCube :=
  move_four_times_id "y" (by decide) (-1) (by decide) initialCube

/-- C10: `rotate` with any direction other than exactly `1` (for example
`0` or `2`) performs the same state change as direction `-1`, because
both the coordinate update and the color cycle branch on strict equality
with `1`. -/
theorem rotate_direction_ne_one_eq_ccw (axis : String) (layer d : Int) (hd : d ≠ 1)
    (s : List Cubie) :
    rotateMove axis layer d s = rotateMove axis layer (-1) s := by
  simp only [rotateMove]
  refine List.map_congr_left fun c _ => ?_
  by_cases hc : axisCoord c axis == some layer
  · simp [hc, transformCubie_of_ne_one axis d hd c]
  · simp [hc]

/-- Witness for C10: direction `2` acts as direction `-1` at `(y, 0)` on
the solved cube. -/
theorem rotate_direction_ne_one_eq_ccw_witness :
    rotateMove "y" 0 2 initialCube = rotateMove "y" 0 (-1) initialCube :=
  rotate_direction_ne_one_eq_ccw "y" 0 2 (by decide) initialCube

/-! ## Claim theorem: the face-color/coordinate invariant (C1)

The claimed invariant is violated by the code: `rotateFaceColors` cycles
the colors in the direction opposite to the coordinate cycle of
`updatePositionsAfterRotation`.  After one `rotate('x', 1, 1)` from
solved, the cubie that started at `(1,1,0)` (up sticker white) moves to
`(1,0,1)` while its white sticker is stored under `back`, an
interior-facing entry (`z = 1`, not `-1`). -/

/-- C1 fails: a state reached by one move from solved contains a cubie
whose `back` entry is non-null although its `z` coordinate is not
`-1`. -/
theorem interior_back_entry_after_one_move :
    Reachable (rotateMove "x" 1 1 initialCube) ∧
    ∃ c ∈ rotateMove "x" 1 1 initialCube, c.faceColors.back ≠ none ∧ c.z ≠ -1 :=
  ⟨Reachable.step "x" 1 1 initialCube Reachable.init, by decide⟩

/-! ## The coordinate multiset invariant -/

/-- `axisCoord` factors through the coordinate triple. -/
lemma axisCoord_eq_pAxis (c : Cubie) (a : String) : axisCoord c a = pAxis a (posOf c) := rfl

/-- `transformCubie` acts on coordinates exactly as `pRot`. -/
lemma posOf_transformCubie (a : String) (d : Int) (c : Cubie) :
    posOf (transformCubie a d c) = pRot a d (posOf c) := by
  cases c with
  | mk x y z fc =>
    simp only [transformCubie, updatePositionCubie, rotateFaceColors, posOf, pRot]
    split_ifs <;> rfl

/-- A move acts on the list of coordinate triples by mapping `posStep`. -/
lemma map_posOf_rotateMove (a : String) (l d : Int) (s : List Cubie) :
    (rotateMove a l d s).map posOf = (s.map posOf).map (posStep a l d) := by
  simp only [rotateMove, List.map_map]
  refine List.map_congr_left fun c _ => ?_
  simp only [Function.comp_apply, posStep, ← axisCoord_eq_pAxis]
  by_cases hc : axisCoord c a == some l
  · simp [hc, posOf_transformCubie]
  · simp [hc]

/-- Any direction other than `1` moves coordinates like `-1`. -/
lemma posStep_ne_one (a : String) (l d : Int) (hd : d ≠ 1) (p : Int × Int × Int) :
    posStep a l d p = posStep a l (-1) p := by
  simp only [posStep, pRot, if_neg hd]
  norm_num

/-- For the 18 in-range move descriptors, one move permutes the 27
initial coordinate triples. -/
lemma posStep_perm_core :
    ∀ a ∈ (["x", "y", "z"] : List String), ∀ l ∈ ([-1, 0, 1] : List Int),
      ∀ d ∈ ([1, -1] : List Int),
        (allPositions.map (posStep a l d)).Perm allPositions := by decide

/-- Every initial coordinate lies in `{-1,0,1}` on each axis. -/
lemma allPositions_range :
    ∀ p ∈ allPositions,
      (p.1 = -1 ∨ p.1 = 0 ∨ p.1 = 1) ∧ (p.2.1 = -1 ∨ p.2.1 = 0 ∨ p.2.1 = 1) ∧
        (p.2.2 = -1 ∨ p.2.2 = 0 ∨ p.2.2 = 1) := by decide

/-- Every move descriptor — in-range or not — permutes the 27 initial
coordinate triples (out-of-range axes or layers select nothing). -/
lemma posStep_perm (a : String) (l d : Int) :
    (allPositions.map (posStep a l d)).Perm allPositions := by
  have hred : ∃ d', d' ∈ ([1, -1] : List Int) ∧ ∀ p, posStep a l d p = posStep a l d' p := by
    by_cases hd : d = 1
    · exact ⟨1, by decide, fun p => by rw [hd]⟩
    · exact ⟨-1, by decide, posStep_ne_one a l d hd⟩
  obtain ⟨d', hd', hpd⟩ := hred
  rw [List.map_congr_left fun p _ => hpd p]
  by_cases ha : a ∈ (["x", "y", "z"] : List String)
  · by_cases hl : l ∈ ([-1, 0, 1] : List Int)
    · exact posStep_perm_core a ha l hl d' hd'
    · have hid : ∀ p ∈ allPositions, posStep a l d' p = p := by
        intro p hp
        obtain ⟨h1, h2, h3⟩ := allPositions_range p hp
        simp only [List.mem_cons, List.not_mem_nil, or_false] at hl
        push_neg at hl
        fin_cases ha
        · have hne : p.1 ≠ l := by rcases h1 with h | h | h <;> omega
          simp [posStep, pAxis, hne]
        · have hne : p.2.1 ≠ l := by rcases h2 with h | h | h <;> omega
          simp [posStep, pAxis, hne]
        · have hne : p.2.2 ≠ l := by rcases h3 with h | h | h <;> omega
          simp [posStep, pAxis, hne]
      rw [List.map_congr_left hid, List.map_id']
  · have hid : ∀ p : Int × Int × Int, posStep a l d' p = p := by
      intro p
      simp only [List.mem_cons, List.not_mem_nil, or_false] at ha
      push_neg at ha
      simp [posStep, pAxis, ha.1, ha.2.1, ha.2.2]
    rw [List.map_congr_left fun p _ => hid p, List.map_id']

/-- The central invariant: in every reachable state the 27 cubies'
coordinate triples are a permutation of the initial ones. -/
lemma reachable_pos_perm (s : List Cubie) (h : Reachable s) :
    (s.map posOf).Perm allPositions := by
  induction h with
  | init => exact List.Perm.refl _
  | step a l d s hs ih =>
    rw [map_posOf_rotateMove]
    exact (ih.map (posStep a l d)).trans (posStep_perm a l d)

/-- Each cubie of a reachable state stays in `{-1,0,1}` on every
axis. -/
lemma reachable_coord_range (s : List Cubie) (h : Reachable s) (c : Cubie) (hc : c ∈ s) :
    (c.x = -1 ∨ c.x = 0 ∨ c.x = 1) ∧ (c.y = -1 ∨ c.y = 0 ∨ c.y = 1) ∧
      (c.z = -1 ∨ c.z = 0 ∨ c.z = 1) :=
  allPositions_range (posOf c)
    ((reachable_pos_perm s h).subset (List.mem_map_of_mem posOf hc))

/-- For each in-range axis/layer pair, the layer count over the initial
coordinates is 9. -/
lemma countP_allPositions_nine :
    ∀ a ∈ (["x", "y", "z"] : List String), ∀ l ∈ ([-1, 0, 1] : List Int),
      allPositions.countP (fun p => pAxis a p == some l) = 9 := by decide

/-! ## Claim theorem: layer counting (C6) -/

/-- C6: in the initial state and after every move (any reachable state),
the cube still has its 27 cubies and, for every axis in `{x,y,z}` and
layer in `{-1,0,1}`, `getCubiesOnLayer` selects exactly 9 of them. -/
theorem layer_count_nine (s : List Cubie) (h : Reachable s)
    (axis : String) (haxis : axis ∈ (["x", "y", "z"] : List String))
    (layer : Int) (hlayer : layer ∈ ([-1, 0, 1] : List Int)) :
    s.length = 27 ∧ (getCubiesOnLayer s axis layer).length = 9 := by
  have hperm := reachable_pos_perm s h
  constructor
  · have hlen := hperm.length_eq
    simpa using hlen
  · have h1 : (getCubiesOnLayer s axis layer).length
        = s.countP fun c => axisCoord c axis == some layer :=
      (List.countP_eq_length_filter _ _).symm
    have h2 : (s.countP fun c => axisCoord c axis == some layer)
        = (s.map posOf).countP fun p => pAxis axis p == some layer := by
      rw [List.countP_map]
      rfl
    rw [h1, h2, hperm.countP_eq]
    exact countP_allPositions_nine axis haxis layer hlayer

/-- Witness for C6 at axis `x`, layer `1`, on the solved cube. -/
theorem layer_count_nine_witness :
    initialCube.length = 27 ∧ (getCubiesOnLayer initialCube "x" 1).length = 9 :=
  layer_count_nine initialCube Reachable.init "x" (by decide) 1 (by decide)

/-! ## Claim theorems: validation (C8)

The source performs no validation at all: `rotate` hands the descriptor
straight to the queue and `executeRotation` just filters; there is no
`InvalidMoveError` anywhere.  A bad axis or layer selects no cubies and
the "move" silently leaves the state unchanged, while a bad direction is
executed as `-1` and mutates the state. -/

/-- C8 counterexample: the invalid descriptor `(x, 1, 0)` (direction not
in `{+1,-1}`) is not rejected — it mutates the cube state. -/
theorem invalid_direction_mutates : rotateMove "x" 1 0 initialCube ≠ initialCube := by
  decide

/-- C8 amended: submissions are never validated.  An axis outside
`{x,y,z}` or (on a reachable state) a layer outside `{-1,0,1}` leaves
the state unchanged with no error, and a direction outside `{+1,-1}` is
executed exactly like direction `-1`. -/
theorem no_validation_behavior :
    (∀ (axis : String) (layer direction : Int) (s : List Cubie),
      axis ∉ (["x", "y", "z"] : List String) → rotateMove axis layer direction s = s) ∧
    (∀ (axis : String) (layer direction : Int) (s : List Cubie),
      Reachable s → layer ∉ ([-1, 0, 1] : List Int) → rotateMove axis layer direction s = s) ∧
    (∀ (axis : String) (layer direction : Int) (s : List Cubie),
      direction ≠ 1 → direction ≠ -1 →
        rotateMove axis layer direction s = rotateMove axis layer (-1) s) := by
  refine ⟨fun axis layer direction s ha => ?_, fun axis layer direction s hs hl => ?_,
    fun axis layer direction s hd _ => ?_⟩
  · simp only [List.mem_cons, List.not_mem_nil, or_false] at ha
    push_neg at ha
    have hid : ∀ c ∈ s,
        (if axisCoord c axis == some layer then transformCubie axis direction c else c) = c := by
      intro c _
      simp [axisCoord, ha.1, ha.2.1, ha.2.2]
    rw [rotateMove, List.map_congr_left hid, List.map_id']
  · simp only [List.mem_cons, List.not_mem_nil, or_false] at hl
    push_neg at hl
    have hid : ∀ c ∈ s,
        (if axisCoord c axis == some layer then transformCubie axis direction c else c) = c := by
      intro c hc
      obtain ⟨hx, hy, hz⟩ := reachable_coord_range s hs c hc
      have hxne : c.x ≠ layer := by rcases hx with h | h | h <;> omega
      have hyne : c.y ≠ layer := by rcases hy with h | h | h <;> omega
      have hzne : c.z ≠ layer := by rcases hz with h | h | h <;> omega
      simp only [axisCoord]
      split_ifs <;> simp_all
    rw [rotateMove, List.map_congr_left hid, List.map_id']
  · simp only [rotateMove]
    refine List.map_congr_left fun c _ => ?_
    by_cases hc : axisCoord c axis == some layer
    · simp [hc, transformCubie_of_ne_one axis direction hd c]
    · simp [hc]

/-- Witness for the amended C8: an unknown axis and an out-of-range
layer are silently ignored on the solved cube, and direction `0` acts
like `-1`. -/
theorem no_validation_behavior_witness :
    rotateMove "q" 0 1 initialCube = initialCube ∧
    rotateMove "x" 5 1 initialCube = initialCube ∧
    rotateMove "x" 1 0 initialCube = rotateMove "x" 1 (-1) initialCube :=
  ⟨no_validation_behavior.1 "q" 0 1 initialCube (by decide),
   no_validation_behavior.2.1 "x" 5 1 initialCube Reachable.init (by decide),
   no_validation_behavior.2.2 "x" 1 0 initialCube (by decide) (by decide)⟩

/-! ## Claim theorem: solve detection (C5) -/

/-- The initial coordinate triples are pairwise distinct. -/
lemma allPositions_nodup : allPositions.Nodup := by decide

/-- In a reachable state no two cubies share a coordinate triple. -/
lemma reachable_pos_nodup (s : List Cubie) (h : Reachable s) : (s.map posOf).Nodup :=
  ((reachable_pos_perm s h).nodup_iff).mpr allPositions_nodup

/-- In a reachable state a coordinate triple determines the cubie. -/
lemma reachable_pos_inj (s : List Cubie) (h : Reachable s) (c1 : Cubie) (h1 : c1 ∈ s)
    (c2 : Cubie) (h2 : c2 ∈ s) (hp : posOf c1 = posOf c2) : c1 = c2 :=
  List.inj_on_of_nodup_map (reachable_pos_nodup s h) h1 h2 hp

/-- The coordinate triple of each face's center position. -/
def centerPos : Face → Int × Int × Int
  | .right => (1, 0, 0)
  | .left => (-1, 0, 0)
  | .up => (0, 1, 0)
  | .down => (0, -1, 0)
  | .front => (0, 0, 1)
  | .back => (0, 0, -1)

/-- A cubie of a face's layer passing `isCenter` sits exactly at that
face's center position. -/
lemma center_pos_eq (s : List Cubie) (face : Face) (c : Cubie)
    (hc : c ∈ getCubiesOnFace s face) (hctr : isCenter c face = true) :
    posOf c = centerPos face := by
  have hc' := List.mem_filter.mp hc
  cases face <;>
    · simp only [getCubiesOnFace, faceToAxisLayer, isCenter, axisCoord, List.mem_filter] at hc' hctr
      simp_all [posOf, centerPos]

/-- In a reachable state every face's layer holds exactly 9 cubies. -/
lemma getCubiesOnFace_length (s : List Cubie) (h : Reachable s) (face : Face) :
    (getCubiesOnFace s face).length = 9 := by
  have hel : getCubiesOnFace s face
      = getCubiesOnLayer s (faceToAxisLayer face).1 (faceToAxisLayer face).2 := rfl
  rw [hel]
  refine (layer_count_nine s h _ ?_ _ ?_).2 <;> cases face <;> decide

/-- `find?` in `isFaceSolved` locates exactly the (unique) center cubie
of the face. -/
lemma find_center_eq (s : List Cubie) (h : Reachable s) (face : Face) (ctr : Cubie)
    (hmem : ctr ∈ getCubiesOnFace s face) (hctr : isCenter ctr face = true) :
    (getCubiesOnFace s face).find? (fun c => isCenter c face) = some ctr := by
  cases hf : (getCubiesOnFace s face).find? (fun c => isCenter c face) with
  | none =>
    exact absurd hctr (by simpa using List.find?_eq_none.mp hf ctr hmem)
  | some c0 =>
    have hc0mem := List.mem_of_find?_eq_some hf
    have hc0p := List.find?_some hf
    have hpos : posOf c0 = posOf ctr :=
      (center_pos_eq s face c0 hc0mem hc0p).trans (center_pos_eq s face ctr hmem hctr).symm
    rw [reachable_pos_inj s h c0 (List.mem_of_mem_filter hc0mem) ctr
      (List.mem_of_mem_filter hmem) hpos]

/-- C5: in every reachable state, for every face and its center cubie
(the cubie of the face's layer with zero on both other axes), the
detector reports the face solved iff the center's color on that face is
non-null and all cubies on the face's layer show that color on that
face. -/
theorem isFaceSolved_iff_center (s : List Cubie) (h : Reachable s) (face : Face) (ctr : Cubie)
    (hmem : ctr ∈ getCubiesOnFace s face) (hctr : isCenter ctr face = true) :
    isFaceSolved s face = true ↔
      ((getColorOnFace ctr face).isSome ∧
        ∀ c ∈ getCubiesOnFace s face, getColorOnFace c face = getColorOnFace ctr face) := by
  have h9 := getCubiesOnFace_length s h face
  have hfind := find_center_eq s h face ctr hmem hctr
  rw [isFaceSolved]
  simp only [h9, hfind]
  norm_num
  cases hcol : getColorOnFace ctr face with
  | none => simp
  | some cc => simp [List.all_eq_true, beq_iff_eq]

/-- Witness for C5: the up face of the solved cube, whose center cubie
is the one constructed at `(0,1,0)`. -/
theorem isFaceSolved_iff_center_witness :
    isFaceSolved initialCube Face.up = true ↔
      ((getColorOnFace (mkCubie 0 1 0) Face.up).isSome ∧
        ∀ c ∈ getCubiesOnFace initialCube Face.up,
          getColorOnFace c Face.up = getColorOnFace (mkCubie 0 1 0) Face.up) :=
  isFaceSolved_iff_center initialCube Reachable.init Face.up (mkCubie 0 1 0)
    (by decide) (by decide)

/-! ## Claim theorems: solve-transition reporting (C2)

`checkAllFaces` computes both kinds of transitions, but only the
false→true ones are pushed onto the `newlySolved` array it returns; a
true→false transition merely deletes the face from the internal
`solvedFaces` set and is invisible in the returned value. -/

/-- First component of the `checkAllFaces` loop: the returned array
collects exactly the faces that are solved now but were not in the
incoming set, in face order. -/
lemma checkFacesAux_fst (s : List Cubie) (fs : List Face) (hnd : fs.Nodup) :
    ∀ (ns : List Face) (g : Face → Bool),
      (checkFacesAux s fs (ns, g)).1
        = ns ++ fs.filter (fun f => isFaceSolved s f && !(g f)) := by
  induction fs with
  | nil => intro ns g; simp [checkFacesAux]
  | cons f fs ih =>
    intro ns g
    have hf : f ∉ fs := (List.nodup_cons.mp hnd).1
    have hnd' : fs.Nodup := (List.nodup_cons.mp hnd).2
    have hcongr : ∀ (b : Bool),
        fs.filter (fun f' => isFaceSolved s f' && !(updateSolved g f b f'))
          = fs.filter (fun f' => isFaceSolved s f' && !(g f')) := by
      intro b
      refine List.filter_congr fun f' hf' => ?_
      have hne : f' ≠ f := fun he => hf (he ▸ hf')
      simp [updateSolved, hne]
    by_cases his : isFaceSolved s f <;> by_cases hwas : g f
    · rw [show checkFacesAux s (f :: fs) (ns, g) = checkFacesAux s fs (ns, g) from by
        simp [checkFacesAux, his, hwas]]
      rw [ih hnd' ns g, List.filter_cons]
      simp [his, hwas]
    · rw [show checkFacesAux s (f :: fs) (ns, g)
          = checkFacesAux s fs (ns ++ [f], updateSolved g f true) from by
        simp [checkFacesAux, his, hwas]]
      rw [ih hnd' (ns ++ [f]) (updateSolved g f true), hcongr, List.filter_cons]
      simp [his, hwas]
    · rw [show checkFacesAux s (f :: fs) (ns, g)
          = checkFacesAux s fs (ns, updateSolved g f false) from by
        simp [checkFacesAux, his, hwas]]
      rw [ih hnd' ns (updateSolved g f false), hcongr, List.filter_cons]
      simp [his, hwas]
    · rw [show checkFacesAux s (f :: fs) (ns, g) = checkFacesAux s fs (ns, g) from by
        simp [checkFacesAux, his, hwas]]
      rw [ih hnd' ns g, List.filter_cons]
      simp [his, hwas]

/-- Second component of the `checkAllFaces` loop: after the call the
internal set holds exactly the faces currently solved. -/
lemma checkFacesAux_snd (s : List Cubie) (fs : List Face) (hnd : fs.Nodup) :
    ∀ (ns : List Face) (g : Face → Bool) (f' : Face),
      (checkFacesAux s fs (ns, g)).2 f'
        = if f' ∈ fs then isFaceSolved s f' else g f' := by
  induction fs with
  | nil => intro ns g f'; simp [checkFacesAux]
  | cons f fs ih =>
    intro ns g f'
    have hf : f ∉ fs := (List.nodup_cons.mp hnd).1
    have hnd' : fs.Nodup := (List.nodup_cons.mp hnd).2
    have step : ∀ (ns' : List Face) (b : Bool),
        (checkFacesAux s fs (ns', updateSolved g f b)).2 f'
          = if f' ∈ fs then isFaceSolved s f' else if f' = f then b else g f' := by
      intro ns' b
      rw [ih hnd' ns' (updateSolved g f b) f']
      by_cases hmem : f' ∈ fs <;> simp [hmem, updateSolved]
    by_cases his : isFaceSolved s f <;> by_cases hwas : g f
    · rw [show checkFacesAux s (f :: fs) (ns, g) = checkFacesAux s fs (ns, g) from by
        simp [checkFacesAux, his, hwas]]
      rw [ih hnd' ns g f']
      by_cases hmem : f' ∈ fs
      · simp [hmem]
      · by_cases heq : f' = f <;> simp [hmem, heq, his, hwas]
    · rw [show checkFacesAux s (f :: fs) (ns, g)
          = checkFacesAux s fs (ns ++ [f], updateSolved g f true) from by
        simp [checkFacesAux, his, hwas]]
      rw [step]
      by_cases hmem : f' ∈ fs
      · simp [hmem]
      · by_cases heq : f' = f <;> simp [hmem, heq, his, hwas]
    · rw [show checkFacesAux s (f :: fs) (ns, g)
          = checkFacesAux s fs (ns, updateSolved g f false) from by
        simp [checkFacesAux, his, hwas]]
      rw [step]
      by_cases hmem : f' ∈ fs
      · simp [hmem]
      · by_cases heq : f' = f <;> simp [hmem, heq, his, hwas]
    · rw [show checkFacesAux s (f :: fs) (ns, g) = checkFacesAux s fs (ns, g) from by
        simp [checkFacesAux, his, hwas]]
      rw [ih hnd' ns g f']
      by_cases hmem : f' ∈ fs
      · simp [hmem]
      · by_cases heq : f' = f <;> simp [hmem, heq, his, hwas]

/-- C2 counterexample: after one `rotate('x',1,1)` from solved, with the
detector's set still holding all six faces (its state after evaluating
the solved cube), the `up` face has transitioned solved→unsolved, yet
the value `checkAllFaces` returns to its caller is the empty array — the
newly-unsolved faces are not observable from it. -/
theorem unsolved_transition_not_returned :
    Reachable (rotateMove "x" 1 1 initialCube) ∧
    (fun _ : Face => true) Face.up = true ∧
    isFaceSolved (rotateMove "x" 1 1 initialCube) Face.up = false ∧
    (checkAllFaces (rotateMove "x" 1 1 initialCube) (fun _ => true)).1 = [] :=
  ⟨Reachable.step "x" 1 1 initialCube Reachable.init, rfl, by decide, by decide⟩

/-- C2 amended: `checkAllFaces` returns exactly the newly solved faces
(solved now, absent from the incoming set), in face order, and updates
the internal set to the currently solved faces; faces that transitioned
solved→unsolved are only deleted from the set, not returned. -/
theorem checkAllFaces_returns_only_newly_solved (s : List Cubie) (g : Face → Bool) :
    (checkAllFaces s g).1 = facesList.filter (fun f => isFaceSolved s f && !(g f)) ∧
    ∀ f, (checkAllFaces s g).2 f = isFaceSolved s f := by
  constructor
  · rw [checkAllFaces, checkFacesAux_fst s facesList (by decide) [] g]
    rfl
  · intro f
    rw [checkAllFaces, checkFacesAux_snd s facesList (by decide) [] g f]
    have : f ∈ facesList := by cases f <;> decide
    rw [if_pos this]

/-! ## Claim theorem: move-queue serialization (C7) -/

/-- C7: in every reachable queue state, (1) entries are numbered in
submission order `0,1,2,…`; (2) the submission history is the start
history followed by the still-queued entries — applications start in
exact FIFO submission order with nothing reordered, coalesced or
dropped; (3) the start history is the completion history followed by
the at-most-one in-flight entry — applications never overlap, and a new
application begins only after every previously started one has
completed (when a `start` fires, `animating = false`, so by (5) nothing
is in flight and by (3) `started = finished`); (4) promises are resolved
exactly for the completed applications in completion order, each in the
same atomic block as its own move's completion; (5) the `isAnimating`
flag is set exactly while an application is in flight. -/
theorem queue_fifo_serialized (s : QState) (h : QReach s) :
    s.submitted = List.range s.submitted.length ∧
    s.submitted = s.started ++ s.queue ∧
    s.started = s.finished ++ s.inflight.toList ∧
    s.resolvedList = s.finished ∧
    s.animating = s.inflight.isSome := by
  induction h with
  | init => exact ⟨rfl, rfl, rfl, rfl, rfl⟩
  | step s t hs hstep ih =>
    obtain ⟨h0, h1, h2, h3, h4⟩ := ih
    cases hstep with
    | add =>
      refine ⟨?_, ?_, h2, h3, h4⟩
      · simp only [List.length_append, List.length_singleton]
        rw [List.range_succ]
        exact congrArg (· ++ [s.submitted.length]) h0 |>.trans
          (by rw [show s.submitted.length = (List.range s.submitted.length).length from
            (List.length_range _).symm, ← h0])
      · rw [h1, List.append_assoc]
    | start m rest hanim hq =>
      have hin : s.inflight = none := by
        cases hi : s.inflight with
        | none => rfl
        | some k => rw [hi] at h4; rw [hanim] at h4; simp at h4
      refine ⟨h0, ?_, ?_, h3, rfl⟩
      · rw [h1, hq]
        simp
      · rw [hin] at h2
        simp at h2
        simp [h2]
    | finish m hin =>
      refine ⟨h0, h1, ?_, by rw [h3], rfl⟩
      rw [hin] at h2
      simpa using h2

/-- The queue state after submitting one move, starting it, and
finishing it. -/
def qDemo : QState :=
  { queue := [], animating := false, inflight := none,
    submitted := [0], started := [0], finished := [0], resolvedList := [0] }

/-- Witness for C7 at a concrete reachable queue state (one move
submitted, started, completed and resolved). -/
theorem queue_fifo_serialized_witness :
    qDemo.submitted = List.range qDemo.submitted.length ∧
    qDemo.submitted = qDemo.started ++ qDemo.queue ∧
    qDemo.started = qDemo.finished ++ qDemo.inflight.toList ∧
    qDemo.resolvedList = qDemo.finished ∧
    qDemo.animating = qDemo.inflight.isSome :=
  queue_fifo_serialized qDemo
    (QReach.step _ _
      (QReach.step _ _
        (QReach.step _ _ QReach.init (QStep.add _))
        (QStep.start _ 0 [] rfl rfl))
      (QStep.finish _ 0 rfl))

/-! ## Claim theorems: scramble (C9)

`scramble` has signature `scramble(moveCount = 20)`: it draws from the
global `Math.random` and accepts no seed, so the drawn sequence is a
function of the ambient random stream, not of the caller's arguments. -/

/-- `Math.floor(r * len)` is a valid index while `r < 1`. -/
lemma randomIndex_lt (r : ℚ) (h1 : r < 1) (len : Nat) (hlen : 0 < len) :
    randomIndex r len < len := by
  have hfl : ⌊r * (len : ℚ)⌋ < (len : Int) := by
    refine Int.floor_lt.mpr ?_
    push_cast
    have hlen' : (0 : ℚ) < (len : ℚ) := by exact_mod_cast hlen
    nlinarith [hlen']
  unfold randomIndex
  omega

/-- C9 amended: while the random stream yields values in `[0,1)`,
`scramble(moveCount)` draws exactly `moveCount` descriptors, each with
axis in `{x,y,z}`, layer in `{-1,0,1}` and direction in `{+1,-1}`, and
its net effect is the in-order sequential application of those drawn
moves (each `rotate` is awaited before the next draw). -/
theorem scramble_draws_valid (env : Nat → ℚ) (henv : ∀ n, 0 ≤ env n ∧ env n < 1)
    (moveCount : Nat) :
    (scrambleMoves env moveCount).length = moveCount ∧
    (∀ m ∈ scrambleMoves env moveCount,
      m.1 ∈ axesArr ∧ m.2.1 ∈ layersArr ∧ m.2.2 ∈ directionsArr) ∧
    ∀ s, scramble env moveCount s
      = (scrambleMoves env moveCount).foldl (fun st m => rotateMove m.1 m.2.1 m.2.2 st) s := by
  refine ⟨by simp [scrambleMoves], fun m hm => ?_, fun s => ?_⟩
  · obtain ⟨i, hi, rfl⟩ := List.mem_map.mp hm
    have ha1 := (henv (3 * i)).2
    have hb1 := (henv (3 * i + 1)).2
    have hc1 := (henv (3 * i + 2)).2
    have hA := randomIndex_lt _ ha1 axesArr.length (by decide)
    have hB := randomIndex_lt _ hb1 layersArr.length (by decide)
    have hC := randomIndex_lt _ hc1 directionsArr.length (by decide)
    refine ⟨?_, ?_, ?_⟩
    · rw [drawMove]
      simp only [List.getD_eq_getElem _ _ hA]
      exact List.getElem_mem hA
    · rw [drawMove]
      simp only [List.getD_eq_getElem _ _ hB]
      exact List.getElem_mem hB
    · rw [drawMove]
      simp only [List.getD_eq_getElem _ _ hC]
      exact List.getElem_mem hC
  · rw [scrambleMoves, List.foldl_map]
    rfl

/-- C9 counterexample (to seeded reproducibility): with identical caller
arguments (`moveCount = 1` — there is no seed parameter), two ambient
`Math.random` streams produce different move sequences, so the sequence
is not reproducible from anything the caller passes. -/
theorem scramble_not_reproducible_from_args :
    scrambleMoves (fun _ => 0) 1 = [("x", -1, 1)] ∧
    scrambleMoves (fun _ => 1/2) 1 = [("y", 0, -1)] ∧
    scrambleMoves (fun _ => 0) 1 ≠ scrambleMoves (fun _ => 1/2) 1 := by
  have h3 : ⌊(2⁻¹ * 3 : ℚ)⌋ = 1 := by norm_num [Int.floor_eq_iff]
  have h2 : ⌊(2⁻¹ * 2 : ℚ)⌋ = 1 := by norm_num
  refine ⟨?_, ?_, ?_⟩ <;>
    simp [scrambleMoves, List.range_succ, drawMove, randomIndex, axesArr, layersArr,
      directionsArr, h3, h2]

/-- Witness for the amended C9 at the constant-zero random stream. -/
theorem scramble_draws_valid_witness :
    (scrambleMoves (fun _ => 0) 1).length = 1 :=
  (scramble_draws_valid (fun _ => 0) (fun _ => by norm_num) 1).1

end Rubiks
